import Mathlib

/-!
Verification of the document-approval workflow of `backend/server.py`
(multi-stage approval matrices, approver-token resolution, and the
document/version state transitions).

Python strings are embedded as `List Char` (`Str`); `None`/`Optional[str]`
becomes `Option Str`; `datetime` values are abstracted to `Nat` timestamps
(the code never branches on them); MongoDB reads/writes become explicit
state passing.  `HTTPException(status_code=c)` becomes `Except.error c`.
-/

abbrev Str := List Char

/-- Turns a Lean string literal into the `List Char` representation. -/
def strLit (s : String) : Str := s.toList

/-- ASCII model of Python's whitespace test used by `str.strip()`. -/
def pyIsSpace (c : Char) : Bool :=
  c.toNat = 32 ∨ c.toNat = 9 ∨ c.toNat = 10 ∨ c.toNat = 13 ∨ c.toNat = 11 ∨ c.toNat = 12

/-- ASCII model of Python's `str.lower()` on a single character
(`Char.toLower` lowercases exactly the range `'A'..'Z'`, as CPython does
for ASCII input). -/
def pyLowerChar (c : Char) : Char := Char.toLower c

/-- Model of Python `value.lower()`. -/
def pyLower (s : Str) : Str := s.map pyLowerChar

/-- Model of Python `value.lstrip()` (ASCII whitespace). -/
def pyTrimLeft (s : Str) : Str := s.dropWhile pyIsSpace

/-- Model of Python `value.rstrip()` (ASCII whitespace). -/
def pyTrimRight (s : Str) : Str := (s.reverse.dropWhile pyIsSpace).reverse

/-- Model of Python `value.strip()` (ASCII whitespace). -/
def pyStrip (s : Str) : Str := pyTrimLeft (pyTrimRight s)

/-- `server.py` `_normalize_token`: `(value or "").strip().lower()`.
An absent value is treated as the empty string; for a present string,
Python's `value or ""` is the identity up to the subsequent strip/lower. -/
def _normalize_token (value : Option Str) : Str :=
  pyLower (pyStrip (value.getD []))

/-- Python `a or b` for `a : Optional[str]`, `b : str` (empty string is falsy). -/
def pyOrStr (a : Option Str) (b : Str) : Str :=
  match a with
  | none => b
  | some s => if s = [] then b else s

/-- The `User` pydantic model of `server.py` (fields the approval logic reads). -/
structure User where
  id : Str
  username : Str
  email : Str
  full_name : Str
  role : Str
  department : Str
  roles : List Str
  groups : List Str
  permissions : List Str
  is_active : Bool
deriving DecidableEq, Repr

/-- Lexicographic-by-code-point order on strings, the order Python's
`sorted` uses in `_collect_role_names`.  Only membership in the sorted
list is ever consumed. -/
def strLe : Str → Str → Bool
  | [], _ => true
  | _ :: _, [] => false
  | a :: as, b :: bs =>
    if a.toNat < b.toNat then true
    else if b.toNat < a.toNat then false
    else strLe as bs

/-- Insertion step of the sort used to model Python's `sorted`. -/
def insertSorted (x : Str) : List Str → List Str
  | [] => [x]
  | y :: ys => if strLe x y then x :: y :: ys else y :: insertSorted x ys

/-- Structural sort by code-point order, modelling Python's `sorted`
(only membership in the result is ever consumed by the code). -/
def sortStrs : List Str → List Str
  | [] => []
  | x :: xs => insertSorted x (sortStrs xs)

/-- `server.py` `_collect_role_names(data)` applied to `user.dict()`:
the set of the truthy primary `role` field and the truthy entries of
`roles`, returned sorted.  Python's `set` is embedded as `List.dedup`. -/
def _collect_role_names (user : User) : List Str :=
  sortStrs (((if user.role ≠ [] then [user.role] else []) ++
      user.roles.filter (fun name => name ≠ [])).dedup)

/-- `server.py` `_user_identifier_tokens`: the set of normalized id,
username, role, email (if truthy), roles entries, department (if truthy)
and groups, with empty tokens filtered out. -/
def _user_identifier_tokens (user : User) : List Str :=
  ((([_normalize_token (some user.id),
      _normalize_token (some user.username),
      _normalize_token (some user.role)] ++
     (if user.email ≠ [] then [_normalize_token (some user.email)] else []) ++
     user.roles.map (fun role => _normalize_token (some role)) ++
     (if user.department ≠ [] then [_normalize_token (some user.department)] else []) ++
     user.groups.map (fun group => _normalize_token (some group))).filter
       (fun token => token ≠ [])).dedup)

/-- The local `strip_prefix` helper of `user_matches_approver`:
`value.split(":", 1)[1] if ":" in value else ""`, i.e. everything after
the first colon, or the empty string when there is no colon. -/
def strip_prefix : Str → Str
  | [] => []
  | c :: rest => if c = ':' then rest else strip_prefix rest

/-- Body of `server.py` `user_matches_approver` after the initial
`token = _normalize_token(approver_token)`: dispatch on the `role:` /
`department:` / `group:` / `user:` prefixes, falling back to membership
among the user's identifier tokens. -/
def user_matches_norm_token (user : User) (token : Str) : Bool :=
  if token = [] then false
  else if (strLit "role:").isPrefixOf token then
    let role_value := strip_prefix token
    (_collect_role_names user).any (fun role => _normalize_token (some role) = role_value)
  else if (strLit "department:").isPrefixOf token then
    let dept_value := strip_prefix token
    _normalize_token (some user.department) = dept_value
  else if (strLit "group:").isPrefixOf token then
    let group_value := strip_prefix token
    user.groups.any (fun group => _normalize_token (some group) = group_value)
  else if (strLit "user:").isPrefixOf token then
    let target := strip_prefix token
    (_user_identifier_tokens user).contains target
  else
    (_user_identifier_tokens user).contains token

/-- `server.py` `user_matches_approver`: normalize the token, then
dispatch on its shape (`user_matches_norm_token`). -/
def user_matches_approver (user : User) (approver_token : Str) : Bool :=
  user_matches_norm_token user (_normalize_token (some approver_token))

/-- The `StageDecision` pydantic model (`decided_at` abstracted to `Nat`). -/
structure StageDecision where
  user_id : Str
  decision : Str
  comment : Option Str
  decided_at : Option Nat
  matched_token : Option Str
deriving DecidableEq, Repr

/-- The `DocumentApprovalStage` pydantic model (`deadline`/`decided_at`
abstracted to `Nat` timestamps). -/
structure DocumentApprovalStage where
  stage : Int
  approvers : List Str
  approval_type : Str
  deadline : Option Nat
  status : Str
  decided_by : Option Str
  decided_at : Option Nat
  comment : Option Str
  decisions : List StageDecision
deriving DecidableEq, Repr

/-- The `DocumentStatus` history-entry pydantic model. -/
structure DocumentStatus where
  status : Str
  changed_by : Str
  changed_at : Nat
  comment : Option Str
deriving DecidableEq, Repr

/-- The `DocumentVersion` pydantic model (fields the approval flow touches). -/
structure DocumentVersion where
  id : Str
  version : Str
  changes : Option Str
  notes : Option Str
  created_by : Str
  created_at : Nat
  file_id : Option Str
  status : Str
deriving DecidableEq, Repr

/-- The `Document` pydantic model (fields the approval flow reads or writes;
`hydrate_document` only fills defaults, so documents are embedded directly). -/
structure Document where
  id : Str
  folder_id : Str
  code : Str
  title : Str
  status : Str
  author_id : Str
  version : Str
  approval_matrix : List DocumentApprovalStage
  status_history : List DocumentStatus
  version_history : List DocumentVersion
  current_version_id : Option Str
  published_at : Option Nat
  updated_at : Nat
deriving DecidableEq, Repr

/-- The `DocumentApprovalDecision` request payload. -/
structure DocumentApprovalDecision where
  stage : Int
  decision : Str
  comment : Option Str
deriving DecidableEq, Repr

/-- The `DocumentVersionCreate` request payload. -/
structure DocumentVersionCreate where
  changes : Option Str
  notes : Option Str
  file_id : Option Str
  mark_as_published : Bool
deriving DecidableEq, Repr

/-- Junk stage used only as the default of total list indexing; every
access is guarded by an in-bounds fact, mirroring Python's
`document.approval_matrix[stage_index]`. -/
def defaultStage : DocumentApprovalStage :=
  { stage := 0, approvers := [], approval_type := strLit "all", deadline := none,
    status := strLit "pending", decided_by := none, decided_at := none,
    comment := none, decisions := [] }

/-- `server.py` `reset_approval_stages`: rebuild each stage keeping
`stage`/`approvers`/`approval_type`/`deadline` and resetting status to
`pending` with no decisions. -/
def reset_approval_stages (stages : List DocumentApprovalStage) : List DocumentApprovalStage :=
  stages.map (fun stage =>
    { stage := stage.stage, approvers := stage.approvers,
      approval_type := stage.approval_type, deadline := stage.deadline,
      status := strLit "pending", comment := none, decided_at := none,
      decided_by := none, decisions := [] })

/-- Loop of `server.py` `find_pending_stage_index`: walk the matrix with
the current best `(pending_index, pending_stage_value)` accumulator,
taking a strictly smaller `stage` value as the new best. -/
def find_pending_go : List DocumentApprovalStage → Nat → Option (Nat × Int) → Option Nat
  | [], _, best => best.map Prod.fst
  | s :: rest, idx, best =>
    if s.status = strLit "pending" then
      match best with
      | none => find_pending_go rest (idx + 1) (some (idx, s.stage))
      | some (bi, bv) =>
        if s.stage < bv then find_pending_go rest (idx + 1) (some (idx, s.stage))
        else find_pending_go rest (idx + 1) (some (bi, bv))
    else find_pending_go rest (idx + 1) best

/-- `server.py` `find_pending_stage_index`. -/
def find_pending_stage_index (document : Document) : Option Nat :=
  find_pending_go document.approval_matrix 0 none

/-- The set built inside `approval_stage_is_complete`: normalized
`matched_token or user_id` of each `approved` decision. -/
def stage_approved_tokens (stage : DocumentApprovalStage) : List Str :=
  ((stage.decisions.filter (fun decision => decision.decision = strLit "approved")).map
    (fun decision => _normalize_token (some (pyOrStr decision.matched_token decision.user_id)))).dedup

/-- The set built inside `approval_stage_is_complete`: normalized truthy
approver tokens of the stage. -/
def stage_required_tokens (stage : DocumentApprovalStage) : List Str :=
  ((stage.approvers.filter (fun token => token ≠ [])).map
    (fun token => _normalize_token (some token))).dedup

/-- `server.py` `approval_stage_is_complete`. -/
def approval_stage_is_complete (stage : DocumentApprovalStage) : Bool :=
  if stage.status = strLit "approved" then true
  else if stage.approval_type = strLit "any" then
    stage.decisions.any (fun decision => decision.decision = strLit "approved")
  else if stage.approvers = [] then false
  else
    (stage_required_tokens stage).all (fun token => (stage_approved_tokens stage).contains token)

/-- `server.py` `resolve_matching_token`: first approver token of the
stage the user matches. -/
def resolve_matching_token (user : User) (stage : DocumentApprovalStage) : Option Str :=
  stage.approvers.find? (fun token => user_matches_approver user token)

/-- The `for version in version_history: if version.id == current_version_id:
version.status = new_status; break` loop of the decision and versioning
endpoints: update the first matching version only. -/
def set_current_version_status :
    List DocumentVersion → Option Str → Str → List DocumentVersion
  | [], _, _ => []
  | v :: rest, current_version_id, new_status =>
    if current_version_id = some v.id then { v with status := new_status } :: rest
    else v :: set_current_version_status rest current_version_id new_status

/-- Decimal rendering of an `Int`, modelling Python's f-string `{stage.stage}`. -/
def repInt (i : Int) : Str :=
  if i < 0 then '-' :: Nat.toDigits 10 i.natAbs else Nat.toDigits 10 i.natAbs

/-- `server.py` endpoint `submit_document_approval_decision`, as a pure
function on the hydrated document.  `folder_read_ok` stands for the
external `ensure_document_folder(..., capability="read")` check (it
raises 403/404 before anything else happens); `now` is the single
`datetime.now` sample.  Error codes are the raised HTTP statuses; every
`raise` in the source happens before the single database write, so an
error leaves the document unchanged (see `dbSubmitDecision`). -/
def submit_document_approval_decision (document : Document) (current_user : User)
    (payload : DocumentApprovalDecision) (now : Nat) (folder_read_ok : Bool) :
    Except Nat Document :=
  if folder_read_ok = false then .error 403
  else if document.approval_matrix = [] then .error 400
  else
    match find_pending_stage_index document with
    | none => .error 400
    | some stage_index =>
      let stage := document.approval_matrix.getD stage_index defaultStage
      match resolve_matching_token current_user stage with
      | none => .error 403
      | some matching_token =>
        if stage.decisions.any (fun dec => dec.user_id = current_user.id) then .error 400
        else
          let decision_entry : StageDecision :=
            { user_id := current_user.id, decision := payload.decision,
              comment := payload.comment, decided_at := some now,
              matched_token := some matching_token }
          let stage1 := { stage with decisions := stage.decisions ++ [decision_entry] }
          if payload.decision = strLit "rejected" then
            let stage2 :=
              { stage1 with
                status := strLit "rejected", decided_by := some current_user.id,
                decided_at := some now, comment := payload.comment }
            let status_entry : DocumentStatus :=
              { status := strLit "draft", changed_by := current_user.id, changed_at := now,
                comment := some (pyOrStr payload.comment (strLit "Onay asamasi reddedildi.")) }
            .ok { document with
                  status := strLit "draft",
                  approval_matrix := document.approval_matrix.set stage_index stage2,
                  version_history :=
                    set_current_version_status document.version_history
                      document.current_version_id (strLit "draft"),
                  status_history := document.status_history ++ [status_entry],
                  updated_at := now }
          else
            if stage1.approval_type = strLit "any" ∨ approval_stage_is_complete stage1 = true then
              let stage2 :=
                { stage1 with
                  status := strLit "approved", decided_by := some current_user.id,
                  decided_at := some now, comment := payload.comment }
              let new_matrix := document.approval_matrix.set stage_index stage2
              let comment_default :=
                strLit "Asama " ++ repInt stage.stage ++ strLit " onaylandi."
              if new_matrix.any (fun s => s.status = strLit "pending") then
                let status_entry : DocumentStatus :=
                  { status := strLit "review", changed_by := current_user.id, changed_at := now,
                    comment := some (pyOrStr payload.comment comment_default) }
                .ok { document with
                      status := strLit "review",
                      approval_matrix := new_matrix,
                      status_history := document.status_history ++ [status_entry],
                      updated_at := now }
              else
                let status_entry : DocumentStatus :=
                  { status := strLit "approved", changed_by := current_user.id, changed_at := now,
                    comment := some (pyOrStr payload.comment comment_default) }
                .ok { document with
                      status := strLit "approved",
                      approval_matrix := new_matrix,
                      version_history :=
                        set_current_version_status document.version_history
                          document.current_version_id (strLit "published"),
                      status_history := document.status_history ++ [status_entry],
                      published_at := some now,
                      updated_at := now }
            else
              .ok { document with
                    approval_matrix := document.approval_matrix.set stage_index stage1,
                    updated_at := now }

/-- The decision endpoint seen from the database: `find_one` on the store
(`none` models a missing document, raised as 404) followed by the single
`update_one` write; any raised error leaves the store as it was. -/
def dbSubmitDecision (store : Option Document) (current_user : User)
    (payload : DocumentApprovalDecision) (now : Nat) (folder_read_ok : Bool) :
    Option Document × Option Nat :=
  match store with
  | none => (none, some 404)
  | some document =>
    match submit_document_approval_decision document current_user payload now folder_read_ok with
    | .error e => (some document, some e)
    | .ok updated => (some updated, none)

/-- `server.py` endpoint `add_document_version`, as a pure function on the
hydrated document.  `folder_revise_ok` stands for the external
`ensure_document_folder(..., capability="revise")` check; `version_label`
is the label computed by `determine_next_version` (string arithmetic on
the previous label, quantified over here) and `new_version_id` the fresh
`uuid4` of the `DocumentVersion`. -/
def add_document_version (document : Document) (payload : DocumentVersionCreate)
    (current_user : User) (now : Nat) (version_label : Str) (new_version_id : Str)
    (folder_revise_ok : Bool) : Except Nat Document :=
  if folder_revise_ok = false then .error 403
  else
    let version_status :=
      if document.approval_matrix ≠ [] then strLit "pending_approval" else strLit "published"
    let version_record : DocumentVersion :=
      { id := new_version_id, version := version_label, changes := payload.changes,
        notes := payload.notes, created_by := current_user.id, created_at := now,
        file_id := payload.file_id, status := version_status }
    let new_status := if document.approval_matrix ≠ [] then strLit "review" else strLit "approved"
    let status_comment :=
      pyOrStr payload.notes (pyOrStr payload.changes (strLit "Yeni revizyon olusturuldu."))
    let status_entry : DocumentStatus :=
      { status := new_status, changed_by := current_user.id, changed_at := now,
        comment := some status_comment }
    .ok { document with
          current_version_id := some version_record.id,
          status := new_status,
          version := version_record.version,
          updated_at := now,
          published_at :=
            if new_status = strLit "approved" then some now else document.published_at,
          approval_matrix :=
            if document.approval_matrix ≠ [] then
              reset_approval_stages document.approval_matrix
            else document.approval_matrix,
          version_history := document.version_history ++ [version_record],
          status_history := document.status_history ++ [status_entry] }

/-! ### String-normalization lemmas -/

/-- All characters of the list are whitespace. -/
def wsOnly (w : Str) : Prop := ∀ c ∈ w, pyIsSpace c = true

theorem charOfNat_toNat (n : Nat) (h : n.isValidChar) : (Char.ofNat n).toNat = n := by
  unfold Char.ofNat
  simp [h]
  rfl

theorem pyIsSpace_pyLowerChar (c : Char) : pyIsSpace (pyLowerChar c) = pyIsSpace c := by
  unfold pyLowerChar Char.toLower
  show pyIsSpace (if c.toNat ≥ 65 ∧ c.toNat ≤ 90 then Char.ofNat (c.toNat + 32) else c) =
    pyIsSpace c
  by_cases h : c.toNat ≥ 65 ∧ c.toNat ≤ 90
  · have hv : (c.toNat + 32).isValidChar := Or.inl (by omega)
    rw [if_pos h]
    simp only [pyIsSpace, charOfNat_toNat _ hv, decide_eq_decide]
    omega
  · rw [if_neg h]

theorem pyLowerChar_comp_isSpace : pyIsSpace ∘ pyLowerChar = pyIsSpace :=
  funext pyIsSpace_pyLowerChar

theorem pyLower_append (s t : Str) : pyLower (s ++ t) = pyLower s ++ pyLower t :=
  List.map_append pyLowerChar s t

theorem pyTrimLeft_append (l1 l2 : Str) :
    pyTrimLeft (l1 ++ l2) =
      if pyTrimLeft l1 = [] then pyTrimLeft l2 else pyTrimLeft l1 ++ l2 := by
  unfold pyTrimLeft
  rw [List.dropWhile_append]
  by_cases h : List.dropWhile pyIsSpace l1 = [] <;> simp [h]

theorem pyTrimRight_append (l1 l2 : Str) :
    pyTrimRight (l1 ++ l2) =
      if pyTrimRight l2 = [] then pyTrimRight l1 else l1 ++ pyTrimRight l2 := by
  unfold pyTrimRight
  rw [List.reverse_append, List.dropWhile_append]
  by_cases h : List.dropWhile pyIsSpace l2.reverse = [] <;>
    simp [h, List.reverse_eq_nil_iff]

theorem pyTrimLeft_eq_nil_of_wsOnly (w : Str) (h : wsOnly w) : pyTrimLeft w = [] := by
  unfold pyTrimLeft
  simp [List.dropWhile_eq_nil_iff]
  exact h 

theorem pyTrimRight_eq_nil_of_wsOnly (w : Str) (h : wsOnly w) : pyTrimRight w = [] := by
  unfold pyTrimRight
  simp [List.dropWhile_eq_nil_iff]
  exact fun c hc => h c (by simpa using hc)

theorem pyStrip_pad (w1 s w2 : Str) (h1 : wsOnly w1) (h2 : wsOnly w2) :
    pyStrip (w1 ++ s ++ w2) = pyStrip s := by
  have hw1 : pyTrimRight w1 = [] := pyTrimRight_eq_nil_of_wsOnly w1 h1
  have hw1L : pyTrimLeft w1 = [] := pyTrimLeft_eq_nil_of_wsOnly w1 h1
  have hw2 : pyTrimRight w2 = [] := pyTrimRight_eq_nil_of_wsOnly w2 h2
  unfold pyStrip
  rw [List.append_assoc]
  by_cases h : pyTrimRight s = []
  · simp [pyTrimRight_append, hw1, hw2, h]
  · simp [pyTrimRight_append, hw2, h, pyTrimLeft_append, hw1L]

theorem normalize_pad (w1 s w2 : Str) (h1 : wsOnly w1) (h2 : wsOnly w2) :
    _normalize_token (some (w1 ++ s ++ w2)) = _normalize_token (some s) := by
  unfold _normalize_token
  rw [Option.getD_some, Option.getD_some, pyStrip_pad w1 s w2 h1 h2]

theorem pyTrimLeft_pyLower (s : Str) : pyTrimLeft (pyLower s) = pyLower (pyTrimLeft s) := by
  unfold pyTrimLeft pyLower
  rw [List.dropWhile_map, pyLowerChar_comp_isSpace]

theorem pyTrimRight_pyLower (s : Str) : pyTrimRight (pyLower s) = pyLower (pyTrimRight s) := by
  unfold pyTrimRight pyLower
  rw [← List.map_reverse, List.dropWhile_map, pyLowerChar_comp_isSpace, List.map_reverse]

theorem pyStrip_pyLower (s : Str) : pyStrip (pyLower s) = pyLower (pyStrip s) := by
  unfold pyStrip
  rw [pyTrimRight_pyLower, pyTrimLeft_pyLower]

theorem normalize_of_lower_eq (s t : Str) (h : pyLower s = pyLower t) :
    _normalize_token (some s) = _normalize_token (some t) := by
  unfold _normalize_token
  rw [Option.getD_some, Option.getD_some, ← pyStrip_pyLower, ← pyStrip_pyLower, h]

theorem pyTrimLeft_trimRight_fixed (X : Str) (h : pyTrimLeft X = X) :
    pyTrimLeft (pyTrimRight X) = pyTrimRight X := by
  cases X with
  | nil => rfl
  | cons c cs =>
    have hc : pyIsSpace c = false := by
      cases hb : pyIsSpace c
      · rfl
      · exfalso
        have h' := h
        unfold pyTrimLeft at h'
        rw [List.dropWhile_cons_of_pos hb] at h'
        have hlen := (List.dropWhile_sublist (l := cs) pyIsSpace).length_le
        rw [h', List.length_cons] at hlen
        omega
    rw [show (c :: cs : Str) = [c] ++ cs from rfl, pyTrimRight_append]
    by_cases h2 : pyTrimRight cs = []
    · rw [if_pos h2]
      unfold pyTrimRight pyTrimLeft
      simp [hc]
    · rw [if_neg h2]
      unfold pyTrimLeft
      rw [List.singleton_append, List.dropWhile_cons, if_neg (by simp [hc])]

theorem norm_of_trimLeft_fixed (X : Str) (h : pyTrimLeft X = X) :
    _normalize_token (some X) = pyLower (pyTrimRight X) := by
  unfold _normalize_token pyStrip
  rw [Option.getD_some, pyTrimLeft_trimRight_fixed X h]

theorem normalize_prefix_append (p X : Str) (hLower : pyLower p = p)
    (hL : pyTrimLeft p = p) (hR : pyTrimRight p = p) (hne : p ≠ []) :
    _normalize_token (some (p ++ X)) = p ++ pyLower (pyTrimRight X) := by
  unfold _normalize_token pyStrip
  rw [Option.getD_some, pyTrimRight_append]
  by_cases h : pyTrimRight X = []
  · rw [if_pos h, hR, hL, hLower, h]
    simp [pyLower]
  · rw [if_neg h, pyTrimLeft_append, hL, if_neg hne, pyLower_append, hLower]

/-! ### Matcher branch lemmas -/

theorem isPrefixOf_self_append (p V : Str) : p.isPrefixOf (p ++ V) = true := by
  induction p with
  | nil => simp [List.isPrefixOf]
  | cons c cs ih => simp [List.isPrefixOf, ih]

theorem matches_role_token (u : User) (V : Str) :
    user_matches_norm_token u (strLit "role:" ++ V) =
      (_collect_role_names u).any (fun role => _normalize_token (some role) = V) := by
  have hne : (strLit "role:" ++ V : Str) ≠ [] := by simp [strLit]
  have h1 : (strLit "role:").isPrefixOf (strLit "role:" ++ V) = true :=
    isPrefixOf_self_append _ _
  have hsp : strip_prefix (strLit "role:" ++ V) = V := rfl
  unfold user_matches_norm_token
  rw [if_neg hne, if_pos h1, hsp]

theorem matches_department_token (u : User) (V : Str) :
    user_matches_norm_token u (strLit "department:" ++ V) = true ↔
      _normalize_token (some u.department) = V := by
  have hne : (strLit "department:" ++ V : Str) ≠ [] := by simp [strLit]
  have e1 : strLit "role:" = 'r' :: 'o' :: 'l' :: 'e' :: ':' :: [] := rfl
  have e2 : strLit "department:" = 'd' :: 'e' :: 'p' :: 'a' :: 'r' :: 't' :: 'm' :: 'e' :: 'n' :: 't' :: ':' :: [] := rfl
  have h1 : (strLit "role:").isPrefixOf (strLit "department:" ++ V) = false := by
    rw [e1, e2]; simp [List.isPrefixOf]
  have h2 : (strLit "department:").isPrefixOf (strLit "department:" ++ V) = true :=
    isPrefixOf_self_append _ _
  have hsp : strip_prefix (strLit "department:" ++ V) = V := rfl
  unfold user_matches_norm_token
  rw [if_neg hne, if_neg (by simp [h1]), if_pos h2, hsp]
  simp

theorem matches_group_token (u : User) (V : Str) :
    user_matches_norm_token u (strLit "group:" ++ V) =
      u.groups.any (fun group => _normalize_token (some group) = V) := by
  have hne : (strLit "group:" ++ V : Str) ≠ [] := by simp [strLit]
  have e1 : strLit "role:" = 'r' :: 'o' :: 'l' :: 'e' :: ':' :: [] := rfl
  have e2 : strLit "department:" = 'd' :: 'e' :: 'p' :: 'a' :: 'r' :: 't' :: 'm' :: 'e' :: 'n' :: 't' :: ':' :: [] := rfl
  have e3 : strLit "group:" = 'g' :: 'r' :: 'o' :: 'u' :: 'p' :: ':' :: [] := rfl
  have h1 : (strLit "role:").isPrefixOf (strLit "group:" ++ V) = false := by
    rw [e1, e3]; simp [List.isPrefixOf]
  have h2 : (strLit "department:").isPrefixOf (strLit "group:" ++ V) = false := by
    rw [e2, e3]; simp [List.isPrefixOf]
  have h3 : (strLit "group:").isPrefixOf (strLit "group:" ++ V) = true :=
    isPrefixOf_self_append _ _
  have hsp : strip_prefix (strLit "group:" ++ V) = V := rfl
  unfold user_matches_norm_token
  rw [if_neg hne, if_neg (by simp [h1]), if_neg (by simp [h2]), if_pos h3, hsp]

theorem matches_user_token (u : User) (V : Str) :
    user_matches_norm_token u (strLit "user:" ++ V) =
      (_user_identifier_tokens u).contains V := by
  have hne : (strLit "user:" ++ V : Str) ≠ [] := by simp [strLit]
  have e1 : strLit "role:" = 'r' :: 'o' :: 'l' :: 'e' :: ':' :: [] := rfl
  have e2 : strLit "department:" = 'd' :: 'e' :: 'p' :: 'a' :: 'r' :: 't' :: 'm' :: 'e' :: 'n' :: 't' :: ':' :: [] := rfl
  have e3 : strLit "group:" = 'g' :: 'r' :: 'o' :: 'u' :: 'p' :: ':' :: [] := rfl
  have e4 : strLit "user:" = 'u' :: 's' :: 'e' :: 'r' :: ':' :: [] := rfl
  have h1 : (strLit "role:").isPrefixOf (strLit "user:" ++ V) = false := by
    rw [e1, e4]; simp [List.isPrefixOf]
  have h2 : (strLit "department:").isPrefixOf (strLit "user:" ++ V) = false := by
    rw [e2, e4]; simp [List.isPrefixOf]
  have h3 : (strLit "group:").isPrefixOf (strLit "user:" ++ V) = false := by
    rw [e3, e4]; simp [List.isPrefixOf]
  have h4 : (strLit "user:").isPrefixOf (strLit "user:" ++ V) = true :=
    isPrefixOf_self_append _ _
  have hsp : strip_prefix (strLit "user:" ++ V) = V := rfl
  unfold user_matches_norm_token
  rw [if_neg hne, if_neg (by simp [h1]), if_neg (by simp [h2]), if_neg (by simp [h3]),
      if_pos h4, hsp]

/-! ### Membership lemmas for role collection -/

theorem mem_insertSorted (a x : Str) (l : List Str) :
    a ∈ insertSorted x l ↔ a = x ∨ a ∈ l := by
  induction l with
  | nil => simp [insertSorted]
  | cons y ys ih =>
    unfold insertSorted
    by_cases h : strLe x y
    · simp [h]
    · simp [h, ih]
      tauto

theorem mem_sortStrs (a : Str) (l : List Str) : a ∈ sortStrs l ↔ a ∈ l := by
  induction l with
  | nil => simp [sortStrs]
  | cons x xs ih => simp [sortStrs, mem_insertSorted, ih]

theorem mem_collect_role_names (u : User) (r : Str) :
    r ∈ _collect_role_names u ↔
      ((u.role ≠ [] ∧ r = u.role) ∨ (r ∈ u.roles ∧ r ≠ [])) := by
  unfold _collect_role_names
  rw [mem_sortStrs, List.mem_dedup]
  by_cases h : u.role = []
  · simp [h, List.mem_filter]
  · simp [h, List.mem_filter]
    try tauto

/-! ### Approver-token resolution claims -/

/-- Concrete user for the `role:` claims: primary role `qa`. -/
def c5User : User :=
  { id := strLit "u1", username := strLit "alice", email := strLit "a@x.io",
    full_name := strLit "Alice", role := strLit "qa", department := strLit "eng",
    roles := [], groups := [], permissions := [], is_active := true }

/-- Normalized role set exactly as the claim words it: the primary role
field together with every entry of the roles list, each normalized
(spec-side definition, used only to compare the claim's phrasing with the
code's behaviour). -/
def spec_normalized_role_set (u : User) : List Str :=
  _normalize_token (some u.role) :: u.roles.map (fun r => _normalize_token (some r))

/-- C5 (as stated) is false: for `X = " qa"` (leading whitespace) and a
user whose role is `qa`, the normalization of X is in the user's
normalized role set, yet `user_matches_approver` on `role: qa` returns
false — the code strips only the ends of the whole token, so the value
after `role:` keeps its leading space. -/
theorem C5_counterexample :
    ¬ (user_matches_approver c5User (strLit "role:" ++ strLit " qa") = true ↔
        _normalize_token (some (strLit " qa")) ∈ spec_normalized_role_set c5User) := by
  decide

/-- C5 (amended): for every user and every name X without leading
whitespace, `user_matches_approver` on `role:X` returns true iff some
role of the user — the nonempty primary role field or a nonempty entry
of the roles list — has the same normalization as X. -/
theorem C5_role_token_match (u : User) (X : Str) (hX : pyTrimLeft X = X) :
    user_matches_approver u (strLit "role:" ++ X) = true ↔
      ∃ r, ((u.role ≠ [] ∧ r = u.role) ∨ (r ∈ u.roles ∧ r ≠ [])) ∧
        _normalize_token (some r) = _normalize_token (some X) := by
  unfold user_matches_approver
  rw [normalize_prefix_append (strLit "role:") X (by decide) (by decide) (by decide)
        (by decide),
      matches_role_token, ← norm_of_trimLeft_fixed X hX, List.any_eq_true]
  constructor
  · rintro ⟨r, hr, hd⟩
    exact ⟨r, (mem_collect_role_names u r).1 hr, by simpa using hd⟩
  · rintro ⟨r, hr, hd⟩
    exact ⟨r, (mem_collect_role_names u r).2 hr, by simpa using hd⟩

/-- Witness for C5 (amended) at a concrete input: role `qa` matches the
token `role:QA`. -/
theorem C5_role_token_match_witness :
    pyTrimLeft (strLit "QA") = strLit "QA" ∧
      user_matches_approver c5User (strLit "role:" ++ strLit "QA") = true :=
  ⟨by decide,
    (C5_role_token_match c5User (strLit "QA") (by decide)).2
      ⟨strLit "qa", Or.inl ⟨by decide, rfl⟩, by decide⟩⟩

/-- Concrete user for the `user:` claims: department `eng`. -/
def c6User : User :=
  { id := strLit "u1", username := strLit "alice", email := strLit "a@x.io",
    full_name := strLit "Alice", role := strLit "writer", department := strLit "eng",
    roles := [], groups := [strLit "g1"], permissions := [], is_active := true }

/-- C6 (as stated) is false: the token `user:eng` matches a user whose
department is `eng` even though `eng` is none of the user's normalized
id, username or email — `user:` compares against all identifier tokens
(id, username, role, email, roles, department, groups). -/
theorem C6_counterexample :
    user_matches_approver c6User (strLit "user:" ++ strLit "eng") = true ∧
      ¬ (_normalize_token (some (strLit "eng")) ∈
          [_normalize_token (some c6User.id), _normalize_token (some c6User.username),
           _normalize_token (some c6User.email)]) := by
  decide

/-- C6 (amended): for every user and every identifier X without leading
whitespace, `user_matches_approver` on `user:X` returns true iff the
normalization of X is among the user's identifier tokens — normalized
id, username, primary role, email, roles entries, department and groups
(empty tokens excluded). -/
theorem C6_user_token_match (u : User) (X : Str) (hX : pyTrimLeft X = X) :
    user_matches_approver u (strLit "user:" ++ X) = true ↔
      _normalize_token (some X) ∈ _user_identifier_tokens u := by
  unfold user_matches_approver
  rw [normalize_prefix_append (strLit "user:") X (by decide) (by decide) (by decide)
        (by decide),
      matches_user_token, ← norm_of_trimLeft_fixed X hX]
  simp

/-- Witness for C6 (amended) at a concrete input: `user:U1` matches the
user with id `u1`. -/
theorem C6_user_token_match_witness :
    pyTrimLeft (strLit "U1") = strLit "U1" ∧
      _normalize_token (some (strLit "U1")) ∈ _user_identifier_tokens c6User ∧
      user_matches_approver c6User (strLit "user:" ++ strLit "U1") = true :=
  ⟨by decide, by decide,
    (C6_user_token_match c6User (strLit "U1") (by decide)).2 (by decide)⟩

/-! ### Stage-completion claims -/

/-- Stage already marked `approved` with no decisions at all (for C1). -/
def c1Stage : DocumentApprovalStage :=
  { stage := 1, approvers := [strLit "user:a", strLit "user:b"],
    approval_type := strLit "all", deadline := none, status := strLit "approved",
    decided_by := none, decided_at := none, comment := none, decisions := [] }

/-- Pending `all` stage whose two approver tokens both have approved
decisions (witness stage for C1). -/
def c1PendingStage : DocumentApprovalStage :=
  { stage := 1, approvers := [strLit "user:a", strLit "user:b"],
    approval_type := strLit "all", deadline := none, status := strLit "pending",
    decided_by := none, decided_at := none, comment := none,
    decisions :=
      [{ user_id := strLit "a", decision := strLit "approved", comment := none,
         decided_at := none, matched_token := some (strLit "user:a") },
       { user_id := strLit "b", decision := strLit "approved", comment := none,
         decided_at := none, matched_token := some (strLit "USER:B") }] }

/-- C1 (as stated) is false: a stage whose status is already `approved`
is complete with an empty decisions list, so completeness is not
equivalent to both approver tokens appearing among approved decisions. -/
theorem C1_counterexample :
    ¬ (approval_stage_is_complete c1Stage = true ↔
        _normalize_token (some (strLit "user:a")) ∈ stage_approved_tokens c1Stage ∧
        _normalize_token (some (strLit "user:b")) ∈ stage_approved_tokens c1Stage) := by
  decide

/-- C1 (amended): for a stage that is not already marked `approved`, with
`approval_type = all` and approver tokens `[A, B]` (nonempty),
`approval_stage_is_complete` returns true iff the normalizations of both
A and B appear among the normalized matched tokens (falling back to the
deciding user id) of the stage's approved decisions — equivalently the
approved-token set is a superset of the required-token set. -/
theorem C1_all_complete_iff (stage : DocumentApprovalStage) (A B : Str)
    (hs : stage.status ≠ strLit "approved")
    (hty : stage.approval_type = strLit "all")
    (happ : stage.approvers = [A, B]) (hA : A ≠ []) (hB : B ≠ []) :
    approval_stage_is_complete stage = true ↔
      _normalize_token (some A) ∈ stage_approved_tokens stage ∧
      _normalize_token (some B) ∈ stage_approved_tokens stage := by
  unfold approval_stage_is_complete
  rw [if_neg hs, if_neg (by rw [hty]; decide), if_neg (by rw [happ]; simp),
      List.all_eq_true]
  unfold stage_required_tokens
  rw [happ]
  simp [hA, hB, List.mem_dedup]

/-- Witness for C1 (amended): the pending two-approver `all` stage with
both tokens approved is complete. -/
theorem C1_all_complete_iff_witness :
    approval_stage_is_complete c1PendingStage = true :=
  (C1_all_complete_iff c1PendingStage (strLit "user:a") (strLit "user:b")
      (by decide) rfl rfl (by decide) (by decide)).2 ⟨by decide, by decide⟩

/-! ### Pending-stage selection lemmas -/

theorem find_pending_go_eq_none_iff (l : List DocumentApprovalStage) (idx : Nat)
    (best : Option (Nat × Int)) :
    find_pending_go l idx best = none ↔
      best = none ∧ ∀ s ∈ l, s.status ≠ strLit "pending" := by
  induction l generalizing idx best with
  | nil =>
    rcases best with _ | ⟨bi, bv⟩ <;> simp [find_pending_go]
  | cons s rest ih =>
    by_cases hp : s.status = strLit "pending"
    · rcases best with _ | ⟨bi, bv⟩
      · unfold find_pending_go
        rw [if_pos hp]
        rw [ih]
        simp [hp]
      · unfold find_pending_go
        rw [if_pos hp]
        dsimp only
        by_cases h2 : s.stage < bv
        · rw [if_pos h2, ih]
          simp [hp]
        · rw [if_neg h2, ih]
          simp [hp]
    · unfold find_pending_go
      rw [if_neg hp, ih]
      simp [hp]

theorem find_pending_go_spec (l : List DocumentApprovalStage) (idx : Nat)
    (best : Option (Nat × Int)) (j : Nat)
    (h : find_pending_go l idx best = some j) :
    (∃ bv, best = some (j, bv) ∧
      ∀ s ∈ l, s.status = strLit "pending" → bv ≤ s.stage)
    ∨ (∃ k, ∃ hk : k < l.length,
        j = idx + k ∧ (l.get ⟨k, hk⟩).status = strLit "pending" ∧
        (∀ s ∈ l, s.status = strLit "pending" → (l.get ⟨k, hk⟩).stage ≤ s.stage) ∧
        (∀ bi bv, best = some (bi, bv) → (l.get ⟨k, hk⟩).stage < bv)) := by
  induction l generalizing idx best j with
  | nil =>
    rcases best with _ | ⟨bi, bv⟩
    · simp [find_pending_go] at h
    · simp [find_pending_go] at h
      left
      subst h
      exact ⟨bv, rfl, by simp⟩
  | cons s rest ih =>
    by_cases hp : s.status = strLit "pending"
    · rcases best with _ | ⟨bi, bv⟩
      · unfold find_pending_go at h
        rw [if_pos hp] at h
        dsimp only at h
        rcases ih (idx + 1) (some (idx, s.stage)) j h with ⟨bv', heq, hbound⟩ | hR
        · right
          have hj : j = idx := by
            have := heq
            simp at this
            omega
          have hbv : bv' = s.stage := by
            have := heq
            simp at this
            exact this.2.symm
          refine ⟨0, by simp, by simpa using hj, by simpa using hp, ?_, by simp⟩
          intro s' hs' hps'
          rcases List.mem_cons.1 hs' with rfl | hmem
          · simp
          · simpa using hbv ▸ hbound s' hmem hps'
        · obtain ⟨k, hk, hj, hpend, hmin, hbcond⟩ := hR
          right
          refine ⟨k + 1, by simpa using Nat.succ_lt_succ hk, by omega, by simpa using hpend, ?_, by simp⟩
          intro s' hs' hps'
          rcases List.mem_cons.1 hs' with rfl | hmem
          · have := hbcond idx s'.stage rfl
            simpa using le_of_lt this
          · simpa using hmin s' hmem hps'
      · unfold find_pending_go at h
        rw [if_pos hp] at h
        dsimp only at h
        by_cases h2 : s.stage < bv
        · rw [if_pos h2] at h
          rcases ih (idx + 1) (some (idx, s.stage)) j h with ⟨bv', heq, hbound⟩ | hR
          · right
            have hj : j = idx := by
              have := heq
              simp at this
              omega
            have hbv : bv' = s.stage := by
              have := heq
              simp at this
              exact this.2.symm
            refine ⟨0, by simp, by simpa using hj, by simpa using hp, ?_, ?_⟩
            · intro s' hs' hps'
              rcases List.mem_cons.1 hs' with rfl | hmem
              · simp
              · simpa using hbv ▸ hbound s' hmem hps'
            · intro bi' bv'' hbest
              have : bv'' = bv := by
                simp at hbest
                exact hbest.2.symm
              simpa [this] using h2
          · obtain ⟨k, hk, hj, hpend, hmin, hbcond⟩ := hR
            right
            refine ⟨k + 1, by simpa using Nat.succ_lt_succ hk, by omega, by simpa using hpend, ?_, ?_⟩
            · intro s' hs' hps'
              rcases List.mem_cons.1 hs' with rfl | hmem
              · have := hbcond idx s'.stage rfl
                simpa using le_of_lt this
              · simpa using hmin s' hmem hps'
            · intro bi' bv'' hbest
              have hb : bv'' = bv := by
                simp at hbest
                exact hbest.2.symm
              have := hbcond idx s.stage rfl
              have hlt : (rest.get ⟨k, hk⟩).stage < bv := lt_trans this h2
              simpa [hb] using hlt
        · rw [if_neg h2] at h
          rcases ih (idx + 1) (some (bi, bv)) j h with ⟨bv', heq, hbound⟩ | hR
          · left
            have hj : bi = j := by
              simp at heq
              exact heq.1
            have hbv : bv' = bv := by
              simp at heq
              exact heq.2.symm
            refine ⟨bv, by rw [hj], ?_⟩
            intro s' hs' hps'
            rcases List.mem_cons.1 hs' with rfl | hmem
            · omega
            · exact hbv ▸ hbound s' hmem hps'
          · obtain ⟨k, hk, hj, hpend, hmin, hbcond⟩ := hR
            right
            have hlt : (rest.get ⟨k, hk⟩).stage < bv := hbcond bi bv rfl
            refine ⟨k + 1, by simpa using Nat.succ_lt_succ hk, by omega, by simpa using hpend, ?_, ?_⟩
            · intro s' hs' hps'
              rcases List.mem_cons.1 hs' with rfl | hmem
              · simp only [List.get_eq_getElem] at hlt ⊢
                simp
                omega
              · simpa using hmin s' hmem hps'
            · intro bi' bv'' hbest
              have hb : bv'' = bv := by
                simp at hbest
                exact hbest.2.symm
              simpa [hb] using hlt
    · unfold find_pending_go at h
      rw [if_neg hp] at h
      rcases ih (idx + 1) best j h with ⟨bv', heq, hbound⟩ | hR
      · left
        refine ⟨bv', heq, ?_⟩
        intro s' hs' hps'
        rcases List.mem_cons.1 hs' with rfl | hmem
        · exact absurd hps' hp
        · exact hbound s' hmem hps'
      · obtain ⟨k, hk, hj, hpend, hmin, hbcond⟩ := hR
        right
        refine ⟨k + 1, by simpa using Nat.succ_lt_succ hk, by omega, by simpa using hpend, ?_, hbcond⟩
        intro s' hs' hps'
        rcases List.mem_cons.1 hs' with rfl | hmem
        · exact absurd hps' hp
        · simpa using hmin s' hmem hps'

theorem find_pending_stage_index_spec (d : Document) (i : Nat)
    (h : find_pending_stage_index d = some i) :
    ∃ hi : i < d.approval_matrix.length,
      (d.approval_matrix.get ⟨i, hi⟩).status = strLit "pending" ∧
      ∀ s ∈ d.approval_matrix, s.status = strLit "pending" →
        (d.approval_matrix.get ⟨i, hi⟩).stage ≤ s.stage := by
  unfold find_pending_stage_index at h
  rcases find_pending_go_spec _ _ _ _ h with ⟨bv, heq, _⟩ | ⟨k, hk, hj, hpend, hmin, _⟩
  · exact absurd heq (by simp)
  · have hik : i = k := by omega
    subst hik
    exact ⟨hk, hpend, hmin⟩

theorem find_pending_some_lt (d : Document) (i : Nat)
    (h : find_pending_stage_index d = some i) : i < d.approval_matrix.length :=
  (find_pending_stage_index_spec d i h).1

theorem find_pending_getD_pending (d : Document) (i : Nat)
    (h : find_pending_stage_index d = some i) :
    (d.approval_matrix.getD i defaultStage).status = strLit "pending" := by
  obtain ⟨hi, hpend, _⟩ := find_pending_stage_index_spec d i h
  rw [List.getD_eq_getElem d.approval_matrix defaultStage hi]
  simpa using hpend

/-- C9: `find_pending_stage_index` returns `none` exactly when no stage of
the approval matrix is `pending`, and otherwise an in-bounds index of a
`pending` stage whose `stage` number is minimal among all pending stages
(the decision endpoint then acts on this index). -/
theorem C9_find_pending_stage_index_correct (d : Document) :
    (find_pending_stage_index d = none ↔
      ∀ s ∈ d.approval_matrix, s.status ≠ strLit "pending") ∧
    (∀ i, find_pending_stage_index d = some i →
      ∃ hi : i < d.approval_matrix.length,
        (d.approval_matrix.get ⟨i, hi⟩).status = strLit "pending" ∧
        ∀ s ∈ d.approval_matrix, s.status = strLit "pending" →
          (d.approval_matrix.get ⟨i, hi⟩).stage ≤ s.stage) := by
  constructor
  · unfold find_pending_stage_index
    rw [find_pending_go_eq_none_iff]
    simp
  · exact fun i h => find_pending_stage_index_spec d i h

/-- Document whose pending stage with the smallest stage number sits at
index 1 (for the C9 witness). -/
def c9Doc : Document :=
  { id := strLit "d9", folder_id := strLit "f1", code := strLit "DOC-9",
    title := strLit "T", status := strLit "review", author_id := strLit "u9",
    version := strLit "1.0",
    approval_matrix :=
      [{ stage := 2, approvers := [strLit "role:qa"], approval_type := strLit "any",
         deadline := none, status := strLit "pending", decided_by := none,
         decided_at := none, comment := none, decisions := [] },
       { stage := 1, approvers := [strLit "role:qa"], approval_type := strLit "any",
         deadline := none, status := strLit "pending", decided_by := none,
         decided_at := none, comment := none, decisions := [] }],
    status_history := [], version_history := [], current_version_id := none,
    published_at := none, updated_at := 0 }

/-- Witness for C9 at a concrete input: among two pending stages numbered
2 and 1, the selected index is 1 (stage number 1, the minimum). -/
theorem C9_find_pending_witness :
    ∃ hi : 1 < c9Doc.approval_matrix.length,
      (c9Doc.approval_matrix.get ⟨1, hi⟩).status = strLit "pending" ∧
      ∀ s ∈ c9Doc.approval_matrix, s.status = strLit "pending" →
        (c9Doc.approval_matrix.get ⟨1, hi⟩).stage ≤ s.stage :=
  (C9_find_pending_stage_index_correct c9Doc).2 1 (by decide)

/-! ### Decision-endpoint claims -/

theorem C2_reject_effect (document : Document) (current_user : User)
    (payload : DocumentApprovalDecision) (now : Nat) (i : Nat) (tok : Str)
    (hmx : document.approval_matrix ≠ [])
    (hfind : find_pending_stage_index document = some i)
    (htok : resolve_matching_token current_user
      (document.approval_matrix.getD i defaultStage) = some tok)
    (hdup : (document.approval_matrix.getD i defaultStage).decisions.any
      (fun dec => dec.user_id = current_user.id) = false)
    (hdec : payload.decision = strLit "rejected") :
    ∃ d', submit_document_approval_decision document current_user payload now true = .ok d' ∧
      d'.status = strLit "draft" ∧
      (d'.approval_matrix.getD i defaultStage).status = strLit "rejected" ∧
      d'.approval_matrix.length = document.approval_matrix.length ∧
      ∀ j, j ≠ i → d'.approval_matrix[j]? = document.approval_matrix[j]? := by
  have hi : i < document.approval_matrix.length := find_pending_some_lt document i hfind
  unfold submit_document_approval_decision
  rw [if_neg (by simp), if_neg hmx, hfind]
  dsimp only
  rw [htok]
  dsimp only
  rw [hdup]
  rw [if_neg (by simp), if_pos hdec]
  refine ⟨_, rfl, rfl, ?_, by simp, ?_⟩
  · rw [List.getD_eq_getElem _ _ (by simpa using hi)]
    simp [List.getElem_set_self]
  · intro j hj
    simp [List.getElem?_set_ne (Ne.symm hj)]

/-- A rejection payload and an approval payload for stage 1. -/
def rejectPayload : DocumentApprovalDecision :=
  { stage := 1, decision := strLit "rejected", comment := none }

/-- Approval payload for stage 1. -/
def approvePayload : DocumentApprovalDecision :=
  { stage := 1, decision := strLit "approved", comment := none }

/-- Two-stage document, both stages pending (stage 1 approvable by the
qa role). -/
def c2Doc : Document :=
  { id := strLit "d2", folder_id := strLit "f1", code := strLit "DOC-2",
    title := strLit "T", status := strLit "review", author_id := strLit "u9",
    version := strLit "1.0",
    approval_matrix :=
      [{ stage := 1, approvers := [strLit "role:qa"], approval_type := strLit "any",
         deadline := none, status := strLit "pending", decided_by := none,
         decided_at := none, comment := none, decisions := [] },
       { stage := 2, approvers := [strLit "role:eng"], approval_type := strLit "all",
         deadline := none, status := strLit "pending", decided_by := none,
         decided_at := none, comment := none, decisions := [] }],
    status_history := [], version_history := [], current_version_id := none,
    published_at := none, updated_at := 0 }

/-- Witness for C2 at a concrete input: the qa user rejects stage 1 of
the two-stage document. -/
theorem C2_reject_effect_witness :
    ∃ d', submit_document_approval_decision c2Doc c5User rejectPayload 5 true = .ok d' ∧
      d'.status = strLit "draft" ∧
      (d'.approval_matrix.getD 0 defaultStage).status = strLit "rejected" ∧
      d'.approval_matrix.length = c2Doc.approval_matrix.length ∧
      ∀ j, j ≠ 0 → d'.approval_matrix[j]? = c2Doc.approval_matrix[j]? :=
  C2_reject_effect c2Doc c5User rejectPayload 5 0 (strLit "role:qa")
    (by decide) (by decide) (by decide) (by decide) rfl

/-- Matrix with a rejected first stage and a pending second stage (the
counterexample document for C3). -/
def c3Doc : Document :=
  { id := strLit "d3", folder_id := strLit "f1", code := strLit "DOC-3",
    title := strLit "T", status := strLit "draft", author_id := strLit "u9",
    version := strLit "1.0",
    approval_matrix :=
      [{ stage := 1, approvers := [strLit "role:eng"], approval_type := strLit "any",
         deadline := none, status := strLit "rejected", decided_by := none,
         decided_at := none, comment := none, decisions := [] },
       { stage := 2, approvers := [strLit "role:qa"], approval_type := strLit "any",
         deadline := none, status := strLit "pending", decided_by := none,
         decided_at := none, comment := none, decisions := [] }],
    status_history := [], version_history := [], current_version_id := none,
    published_at := none, updated_at := 0 }

/-- C3 (as stated) is false: on a matrix whose first stage was rejected
and whose second (pending, `any`) stage receives an approving decision,
the document becomes `approved` although not all stages are approved —
the code only checks that no stage is still `pending`. -/
theorem C3_counterexample :
    (submit_document_approval_decision c3Doc c5User approvePayload 7 true).map
        (fun d => (d.status, d.approval_matrix.map DocumentApprovalStage.status)) =
      .ok (strLit "approved", [strLit "rejected", strLit "approved"]) := by
  rfl

/-- C3 (amended): when an approving decision completes the current
pending stage, that stage is marked `approved` and the document status
becomes `approved` exactly when no stage of the updated matrix is still
`pending` (a `rejected` stage does not prevent document approval);
otherwise the status is `review`. -/
theorem C3_approved_when_no_pending (document : Document) (current_user : User)
    (payload : DocumentApprovalDecision) (now : Nat) (i : Nat) (tok : Str)
    (hmx : document.approval_matrix ≠ [])
    (hfind : find_pending_stage_index document = some i)
    (htok : resolve_matching_token current_user
      (document.approval_matrix.getD i defaultStage) = some tok)
    (hdup : (document.approval_matrix.getD i defaultStage).decisions.any
      (fun dec => dec.user_id = current_user.id) = false)
    (hdec : payload.decision ≠ strLit "rejected")
    (hcomp : (document.approval_matrix.getD i defaultStage).approval_type = strLit "any" ∨
      approval_stage_is_complete
        { document.approval_matrix.getD i defaultStage with
          decisions := (document.approval_matrix.getD i defaultStage).decisions ++
            [{ user_id := current_user.id, decision := payload.decision,
               comment := payload.comment, decided_at := some now,
               matched_token := some tok }] } = true) :
    ∃ d', submit_document_approval_decision document current_user payload now true = .ok d' ∧
      (d'.approval_matrix.getD i defaultStage).status = strLit "approved" ∧
      d'.status = (if d'.approval_matrix.any (fun s => s.status = strLit "pending")
                   then strLit "review" else strLit "approved") := by
  have hi : i < document.approval_matrix.length := find_pending_some_lt document i hfind
  unfold submit_document_approval_decision
  rw [if_neg (by simp), if_neg hmx, hfind]
  dsimp only
  rw [htok]
  dsimp only
  rw [hdup]
  rw [if_neg (by simp), if_neg hdec, if_pos hcomp]
  split
  · next hrem =>
    refine ⟨_, rfl, ?_, ?_⟩
    · rw [List.getD_eq_getElem _ _ (by simpa using hi)]
      simp [List.getElem_set_self]
    · dsimp only
      rw [if_pos hrem]
  · next hrem =>
    refine ⟨_, rfl, ?_, ?_⟩
    · rw [List.getD_eq_getElem _ _ (by simpa using hi)]
      simp [List.getElem_set_self]
    · dsimp only
      rw [if_neg hrem]

/-- Witness for C3 (amended) at a concrete input: approving stage 1 of
the two-stage document leaves stage 2 pending, so the document is in
`review`. -/
theorem C3_approved_when_no_pending_witness :
    ∃ d', submit_document_approval_decision c2Doc c5User approvePayload 5 true = .ok d' ∧
      (d'.approval_matrix.getD 0 defaultStage).status = strLit "approved" ∧
      d'.status = (if d'.approval_matrix.any (fun s => s.status = strLit "pending")
                   then strLit "review" else strLit "approved") :=
  C3_approved_when_no_pending c2Doc c5User approvePayload 5 0 (strLit "role:qa")
    (by decide) (by decide) (by decide) (by decide) (by decide) (Or.inl (by decide))

/-- Single-stage document `{approvers: ["role:qa"], approval_type: "any"}`
(the example stage of C7). -/
def c7Doc : Document :=
  { id := strLit "d7", folder_id := strLit "f1", code := strLit "DOC-7",
    title := strLit "T", status := strLit "review", author_id := strLit "u9",
    version := strLit "1.0",
    approval_matrix :=
      [{ stage := 1, approvers := [strLit "role:qa"], approval_type := strLit "any",
         deadline := none, status := strLit "pending", decided_by := none,
         decided_at := none, comment := none, decisions := [] }],
    status_history := [], version_history := [], current_version_id := none,
    published_at := none, updated_at := 0 }

/-- C7: for a pending stage with `approval_type = any`, a single
`approved` decision from a user matching one of the stage's approver
tokens immediately marks the stage `approved`, and the document becomes
`review` when another stage is still pending, else `approved`. -/
theorem C7_any_stage_first_approval (document : Document) (current_user : User)
    (payload : DocumentApprovalDecision) (now : Nat) (i : Nat) (tok : Str)
    (hmx : document.approval_matrix ≠ [])
    (hfind : find_pending_stage_index document = some i)
    (htok : resolve_matching_token current_user
      (document.approval_matrix.getD i defaultStage) = some tok)
    (hdup : (document.approval_matrix.getD i defaultStage).decisions.any
      (fun dec => dec.user_id = current_user.id) = false)
    (hdec : payload.decision = strLit "approved")
    (hany : (document.approval_matrix.getD i defaultStage).approval_type = strLit "any") :
    ∃ d', submit_document_approval_decision document current_user payload now true = .ok d' ∧
      (d'.approval_matrix.getD i defaultStage).status = strLit "approved" ∧
      d'.status = (if d'.approval_matrix.any (fun s => s.status = strLit "pending")
                   then strLit "review" else strLit "approved") := by
  have hi : i < document.approval_matrix.length := find_pending_some_lt document i hfind
  have hdec' : payload.decision ≠ strLit "rejected" := by rw [hdec]; decide
  unfold submit_document_approval_decision
  rw [if_neg (by simp), if_neg hmx, hfind]
  dsimp only
  rw [htok]
  dsimp only
  rw [hdup]
  rw [if_neg (by simp), if_neg hdec', if_pos (Or.inl hany)]
  split
  · next hrem =>
    refine ⟨_, rfl, ?_, ?_⟩
    · rw [List.getD_eq_getElem _ _ (by simpa using hi)]
      simp [List.getElem_set_self]
    · dsimp only
      rw [if_pos hrem]
  · next hrem =>
    refine ⟨_, rfl, ?_, ?_⟩
    · rw [List.getD_eq_getElem _ _ (by simpa using hi)]
      simp [List.getElem_set_self]
    · dsimp only
      rw [if_neg hrem]

/-- Witness for C7 at the claim's own example: one approved decision by a
qa-role user on the single `any` stage approves the stage and the
document. -/
theorem C7_any_stage_first_approval_witness :
    ∃ d', submit_document_approval_decision c7Doc c5User approvePayload 5 true = .ok d' ∧
      (d'.approval_matrix.getD 0 defaultStage).status = strLit "approved" ∧
      d'.status = (if d'.approval_matrix.any (fun s => s.status = strLit "pending")
                   then strLit "review" else strLit "approved") :=
  C7_any_stage_first_approval c7Doc c5User approvePayload 5 0 (strLit "role:qa")
    (by decide) (by decide) (by decide) (by decide) rfl (by decide)

/-! ### Version-creation claim -/

theorem mem_reset_approval_stages (l : List DocumentApprovalStage)
    (s : DocumentApprovalStage) (hs : s ∈ reset_approval_stages l) :
    s.status = strLit "pending" ∧ s.decisions = [] := by
  unfold reset_approval_stages at hs
  obtain ⟨t, ht, rfl⟩ := List.mem_map.1 hs
  exact ⟨rfl, rfl⟩

/-- C4: creating a new document version resets every stage of a
non-empty approval matrix to `pending` with no decisions and puts the
document in `review`; with an empty matrix the document becomes
`approved` directly. -/
theorem C4_new_version_resets (document : Document) (payload : DocumentVersionCreate)
    (current_user : User) (now : Nat) (version_label new_version_id : Str) :
    ∃ d', add_document_version document payload current_user now version_label
        new_version_id true = .ok d' ∧
      (document.approval_matrix ≠ [] →
        d'.status = strLit "review" ∧
        ∀ s ∈ d'.approval_matrix, s.status = strLit "pending" ∧ s.decisions = []) ∧
      (document.approval_matrix = [] → d'.status = strLit "approved") := by
  unfold add_document_version
  rw [if_neg (by simp)]
  refine ⟨_, rfl, fun hmx => ⟨?_, ?_⟩, fun hmx => ?_⟩
  · dsimp only
    rw [if_pos hmx]
  · intro s hs
    dsimp only at hs
    rw [if_pos hmx] at hs
    exact mem_reset_approval_stages _ _ hs
  · dsimp only
    rw [if_neg (by simp [hmx])]

/-- Empty version-creation payload used by the C4 witness. -/
def c4Payload : DocumentVersionCreate :=
  { changes := none, notes := none, file_id := none, mark_as_published := false }

/-- Witness for C4 at a concrete input: a new version on the two-stage
document resets both stages and sets `review`. -/
theorem C4_new_version_resets_witness :
    ∃ d', add_document_version c2Doc c4Payload c5User 9 (strLit "1.1") (strLit "v2")
        true = .ok d' ∧
      d'.status = strLit "review" ∧
      ∀ s ∈ d'.approval_matrix, s.status = strLit "pending" ∧ s.decisions = [] := by
  obtain ⟨d', h1, h2, h3⟩ :=
    C4_new_version_resets c2Doc c4Payload c5User 9 (strLit "1.1") (strLit "v2")
  exact ⟨d', h1, (h2 (by decide)).1, (h2 (by decide)).2⟩

/-! ### Error handling and atomicity of the decision endpoint -/

theorem submit_ok_decisions_char (document : Document) (current_user : User)
    (payload : DocumentApprovalDecision) (now : Nat) (fok : Bool) (d' : Document)
    (h : submit_document_approval_decision document current_user payload now fok = .ok d') :
    ∃ i, find_pending_stage_index document = some i ∧
      (document.approval_matrix.getD i defaultStage).decisions.any
        (fun dec => dec.user_id = current_user.id) = false ∧
      ∃ st : DocumentApprovalStage,
        d'.approval_matrix = document.approval_matrix.set i st ∧
        ∃ tok, st.decisions = (document.approval_matrix.getD i defaultStage).decisions ++
          [{ user_id := current_user.id, decision := payload.decision,
             comment := payload.comment, decided_at := some now,
             matched_token := some tok }] := by
  unfold submit_document_approval_decision at h
  by_cases hf : fok = false
  · rw [if_pos hf] at h
    exact absurd h (by simp)
  · rw [if_neg hf] at h
    by_cases hmx : document.approval_matrix = []
    · rw [if_pos hmx] at h
      exact absurd h (by simp)
    · rw [if_neg hmx] at h
      cases hfind : find_pending_stage_index document with
      | none =>
        rw [hfind] at h
        exact absurd h (by simp)
      | some i =>
        rw [hfind] at h
        dsimp only at h
        cases htok : resolve_matching_token current_user
            (document.approval_matrix.getD i defaultStage) with
        | none =>
          rw [htok] at h
          exact absurd h (by simp)
        | some tok =>
          rw [htok] at h
          dsimp only at h
          by_cases hdup : (document.approval_matrix.getD i defaultStage).decisions.any
              (fun dec => dec.user_id = current_user.id) = true
          · rw [if_pos hdup] at h
            exact absurd h (by simp)
          · have hdupf : (document.approval_matrix.getD i defaultStage).decisions.any
                (fun dec => dec.user_id = current_user.id) = false := by
              simpa using hdup
            rw [if_neg hdup] at h
            refine ⟨i, rfl, hdupf, ?_⟩
            by_cases hrej : payload.decision = strLit "rejected"
            · rw [if_pos hrej] at h
              injection h with h'
              subst h'
              exact ⟨_, rfl, tok, rfl⟩
            · rw [if_neg hrej] at h
              by_cases hcomp : (document.approval_matrix.getD i defaultStage).approval_type =
                  strLit "any" ∨
                  approval_stage_is_complete
                    { document.approval_matrix.getD i defaultStage with
                      decisions := (document.approval_matrix.getD i defaultStage).decisions ++
                        [{ user_id := current_user.id, decision := payload.decision,
                           comment := payload.comment, decided_at := some now,
                           matched_token := some tok }] } = true
              · rw [if_pos hcomp] at h
                split at h
                · injection h with h'
                  subst h'
                  exact ⟨_, rfl, tok, rfl⟩
                · injection h with h'
                  subst h'
                  exact ⟨_, rfl, tok, rfl⟩
              · rw [if_neg hcomp] at h
                injection h with h'
                subst h'
                exact ⟨_, rfl, tok, rfl⟩

/-- C10: the decision endpoint records at most one decision per user per
stage and is atomic on error: a missing document yields 404, an empty
approval matrix 400, no pending stage 400, a non-matching user 403, an
already-recorded decision of the calling user 400; whenever an error is
returned the stored document is unchanged; and a successful call
preserves the invariant that every stage holds at most one decision per
user. -/
theorem C10_at_most_one_decision_and_atomic :
    (∀ (current_user : User) (payload : DocumentApprovalDecision) (now : Nat) (fok : Bool),
      dbSubmitDecision none current_user payload now fok = (none, some 404)) ∧
    (∀ (document : Document) (current_user : User) (payload : DocumentApprovalDecision)
        (now : Nat), document.approval_matrix = [] →
      submit_document_approval_decision document current_user payload now true =
        .error 400) ∧
    (∀ (document : Document) (current_user : User) (payload : DocumentApprovalDecision)
        (now : Nat), document.approval_matrix ≠ [] →
      find_pending_stage_index document = none →
      submit_document_approval_decision document current_user payload now true =
        .error 400) ∧
    (∀ (document : Document) (current_user : User) (payload : DocumentApprovalDecision)
        (now : Nat) (i : Nat), document.approval_matrix ≠ [] →
      find_pending_stage_index document = some i →
      resolve_matching_token current_user
        (document.approval_matrix.getD i defaultStage) = none →
      submit_document_approval_decision document current_user payload now true =
        .error 403) ∧
    (∀ (document : Document) (current_user : User) (payload : DocumentApprovalDecision)
        (now : Nat) (i : Nat) (tok : Str), document.approval_matrix ≠ [] →
      find_pending_stage_index document = some i →
      resolve_matching_token current_user
        (document.approval_matrix.getD i defaultStage) = some tok →
      (document.approval_matrix.getD i defaultStage).decisions.any
        (fun dec => dec.user_id = current_user.id) = true →
      submit_document_approval_decision document current_user payload now true =
        .error 400) ∧
    (∀ (store : Option Document) (current_user : User)
        (payload : DocumentApprovalDecision) (now : Nat) (fok : Bool) (e : Nat),
      (dbSubmitDecision store current_user payload now fok).2 = some e →
      (dbSubmitDecision store current_user payload now fok).1 = store) ∧
    (∀ (document : Document) (current_user : User) (payload : DocumentApprovalDecision)
        (now : Nat) (d' : Document),
      submit_document_approval_decision document current_user payload now true = .ok d' →
      (∀ s ∈ document.approval_matrix, ∀ uid : Str,
        (s.decisions.filter (fun dec => dec.user_id = uid)).length ≤ 1) →
      ∀ s ∈ d'.approval_matrix, ∀ uid : Str,
        (s.decisions.filter (fun dec => dec.user_id = uid)).length ≤ 1) := by
  refine ⟨fun _ _ _ _ => rfl, ?_, ?_, ?_, ?_, ?_, ?_⟩
  · intro document current_user payload now hmx
    unfold submit_document_approval_decision
    rw [if_neg (by simp), if_pos hmx]
  · intro document current_user payload now hmx hfind
    unfold submit_document_approval_decision
    rw [if_neg (by simp), if_neg hmx, hfind]
  · intro document current_user payload now i hmx hfind htok
    unfold submit_document_approval_decision
    rw [if_neg (by simp), if_neg hmx, hfind]
    dsimp only
    rw [htok]
  · intro document current_user payload now i tok hmx hfind htok hdup
    unfold submit_document_approval_decision
    rw [if_neg (by simp), if_neg hmx, hfind]
    dsimp only
    rw [htok]
    dsimp only
    rw [if_pos hdup]
  · intro store current_user payload now fok e h
    cases store with
    | none => rfl
    | some doc =>
      unfold dbSubmitDecision at h ⊢
      dsimp only at h ⊢
      cases hs : submit_document_approval_decision doc current_user payload now fok with
      | error err => rfl
      | ok u =>
        rw [hs] at h
        simp at h
  · intro document current_user payload now d' h hprev s hs uid
    obtain ⟨i, hfind, hdupf, st, hmat, tok, hdecs⟩ :=
      submit_ok_decisions_char document current_user payload now true d' h
    rw [hmat] at hs
    rcases List.mem_or_eq_of_mem_set hs with hmem | rfl
    · exact hprev s hmem uid
    · rw [hdecs, List.filter_append]
      simp only [List.any_eq_false, decide_eq_true_eq] at hdupf
      by_cases huid : uid = current_user.id
      · subst huid
        have hold : (document.approval_matrix.getD i defaultStage).decisions.filter
            (fun dec => dec.user_id = current_user.id) = [] := by
          rw [List.filter_eq_nil_iff]
          intro a ha
          simpa using hdupf a ha
        rw [hold]
        simp
      · have hstage_mem :
            document.approval_matrix.getD i defaultStage ∈ document.approval_matrix := by
          have hi := find_pending_some_lt document i hfind
          rw [List.getD_eq_getElem _ _ hi]
          exact List.getElem_mem hi
        have hself := hprev _ hstage_mem uid
        have hne : ¬ (current_user.id = uid) := fun hh => huid hh.symm
        simp only [List.filter_cons, List.filter_nil]
        rw [if_neg (by simpa using hne)]
        simpa using hself

/-- Document whose single pending stage already holds a decision by user
`u1` (for the C10 witness). -/
def c10Doc : Document :=
  { id := strLit "d10", folder_id := strLit "f1", code := strLit "DOC-10",
    title := strLit "T", status := strLit "review", author_id := strLit "u9",
    version := strLit "1.0",
    approval_matrix :=
      [{ stage := 1, approvers := [strLit "role:qa"], approval_type := strLit "all",
         deadline := none, status := strLit "pending", decided_by := none,
         decided_at := none, comment := none,
         decisions :=
           [{ user_id := strLit "u1", decision := strLit "approved", comment := none,
              decided_at := none, matched_token := some (strLit "role:qa") }] }],
    status_history := [], version_history := [], current_version_id := none,
    published_at := none, updated_at := 0 }

/-- Witness for C10 at a concrete input: user `u1`, who already decided
on the pending stage, gets HTTP 400 on a second decision. -/
theorem C10_duplicate_witness :
    submit_document_approval_decision c10Doc c5User approvePayload 3 true = .error 400 :=
  C10_at_most_one_decision_and_atomic.2.2.2.2.1 c10Doc c5User approvePayload 3 0
    (strLit "role:qa") (by decide) (by decide) (by decide) (by decide)

/-! ### Case/whitespace invariance of approver matching -/

/-- One identifier field rewritten by a case change and leading/trailing
whitespace: either both values are absent (empty), or the new value is a
case variant of the old one padded with whitespace. -/
def fieldVariant (f f' : Str) : Prop :=
  (f = [] ∧ f' = []) ∨
  (f ≠ [] ∧ ∃ w1 w2, wsOnly w1 ∧ wsOnly w2 ∧ pyLower f' = pyLower (w1 ++ f ++ w2))

theorem fieldVariant_norm_eq (f f' : Str) (h : fieldVariant f f') :
    _normalize_token (some f') = _normalize_token (some f) := by
  rcases h with ⟨h1, h2⟩ | ⟨hne, w1, w2, hw1, hw2, hl⟩
  · rw [h1, h2]
  · calc _normalize_token (some f') = _normalize_token (some (w1 ++ f ++ w2)) :=
          normalize_of_lower_eq _ _ hl
      _ = _normalize_token (some f) := normalize_pad w1 f w2 hw1 hw2

theorem fieldVariant_empty_iff (f f' : Str) (h : fieldVariant f f') :
    f = [] ↔ f' = [] := by
  rcases h with ⟨h1, h2⟩ | ⟨hne, w1, w2, hw1, hw2, hl⟩
  · simp [h1, h2]
  · constructor
    · intro hf
      exact absurd hf hne
    · intro hf'
      exfalso
      apply hne
      have hlen := congrArg List.length hl
      simp [pyLower, hf'] at hlen
      have hzero : f.length = 0 := by omega
      exact List.length_eq_zero.1 hzero

/-- All identifier fields of the user rewritten by case changes and
whitespace padding. -/
def userVariant (u u' : User) : Prop :=
  fieldVariant u.id u'.id ∧ fieldVariant u.username u'.username ∧
  fieldVariant u.email u'.email ∧ fieldVariant u.role u'.role ∧
  fieldVariant u.department u'.department ∧
  List.Forall₂ fieldVariant u.roles u'.roles ∧
  List.Forall₂ fieldVariant u.groups u'.groups

theorem map_norm_of_forall2 (l l' : List Str)
    (h : List.Forall₂ fieldVariant l l') :
    l'.map (fun r => _normalize_token (some r)) =
      l.map (fun r => _normalize_token (some r)) := by
  induction h with
  | nil => rfl
  | cons hd tl ih => simp [fieldVariant_norm_eq _ _ hd, ih]

theorem exists_mem_of_forall2_right {R : Str → Str → Prop} (l l' : List Str)
    (h : List.Forall₂ R l l') (a' : Str) (hm : a' ∈ l') :
    ∃ a ∈ l, R a a' := by
  induction h with
  | nil => cases hm
  | cons hd tl ih =>
    rcases List.mem_cons.1 hm with rfl | hmem
    · exact ⟨_, List.mem_cons_self .., hd⟩
    · obtain ⟨a, ha, hr⟩ := ih hmem
      exact ⟨a, List.mem_cons_of_mem _ ha, hr⟩

theorem exists_mem_of_forall2_left {R : Str → Str → Prop} (l l' : List Str)
    (h : List.Forall₂ R l l') (a : Str) (hm : a ∈ l) :
    ∃ a' ∈ l', R a a' := by
  induction h with
  | nil => cases hm
  | cons hd tl ih =>
    rcases List.mem_cons.1 hm with rfl | hmem
    · exact ⟨_, List.mem_cons_self .., hd⟩
    · obtain ⟨a', ha', hr⟩ := ih hmem
      exact ⟨a', List.mem_cons_of_mem _ ha', hr⟩

theorem user_identifier_tokens_variant (u u' : User) (h : userVariant u u') :
    _user_identifier_tokens u' = _user_identifier_tokens u := by
  obtain ⟨hid, hun, hem, hro, hdep, hroles, hgroups⟩ := h
  unfold _user_identifier_tokens
  have hemail : (if u'.email ≠ [] then [_normalize_token (some u'.email)] else []) =
      (if u.email ≠ [] then [_normalize_token (some u.email)] else []) := by
    by_cases hh : u.email = []
    · rw [if_neg (by simp [(fieldVariant_empty_iff _ _ hem).1 hh]), if_neg (by simp [hh])]
    · rw [if_pos (fun he' => hh ((fieldVariant_empty_iff _ _ hem).2 he')), if_pos hh,
          fieldVariant_norm_eq _ _ hem]
  have hdept : (if u'.department ≠ [] then [_normalize_token (some u'.department)] else []) =
      (if u.department ≠ [] then [_normalize_token (some u.department)] else []) := by
    by_cases hh : u.department = []
    · rw [if_neg (by simp [(fieldVariant_empty_iff _ _ hdep).1 hh]), if_neg (by simp [hh])]
    · rw [if_pos (fun he' => hh ((fieldVariant_empty_iff _ _ hdep).2 he')), if_pos hh,
          fieldVariant_norm_eq _ _ hdep]
  rw [fieldVariant_norm_eq _ _ hid, fieldVariant_norm_eq _ _ hun,
      fieldVariant_norm_eq _ _ hro, hemail, hdept,
      map_norm_of_forall2 _ _ hroles, map_norm_of_forall2 _ _ hgroups]

theorem collect_any_variant (u u' : User) (h : userVariant u u') (v : Str) :
    (_collect_role_names u').any (fun role => _normalize_token (some role) = v) =
      (_collect_role_names u).any (fun role => _normalize_token (some role) = v) := by
  obtain ⟨hid, hun, hem, hro, hdep, hroles, hgroups⟩ := h
  rw [Bool.eq_iff_iff]
  simp only [List.any_eq_true, decide_eq_true_eq]
  constructor
  · rintro ⟨r', hr', hv⟩
    rcases (mem_collect_role_names u' r').1 hr' with ⟨hne', rfl⟩ | ⟨hmem', hne'⟩
    · refine ⟨u.role, (mem_collect_role_names u u.role).2 (Or.inl ⟨?_, rfl⟩), ?_⟩
      · intro hz
        exact hne' ((fieldVariant_empty_iff _ _ hro).1 hz)
      · rw [← fieldVariant_norm_eq _ _ hro]
        exact hv
    · obtain ⟨r, hr, hvar⟩ := exists_mem_of_forall2_right _ _ hroles r' hmem'
      refine ⟨r, (mem_collect_role_names u r).2 (Or.inr ⟨hr, ?_⟩), ?_⟩
      · intro hz
        exact hne' ((fieldVariant_empty_iff _ _ hvar).1 hz)
      · rw [← fieldVariant_norm_eq _ _ hvar]
        exact hv
  · rintro ⟨r, hr, hv⟩
    rcases (mem_collect_role_names u r).1 hr with ⟨hne, rfl⟩ | ⟨hmem, hne⟩
    · refine ⟨u'.role, (mem_collect_role_names u' u'.role).2 (Or.inl ⟨?_, rfl⟩), ?_⟩
      · intro hz
        exact hne ((fieldVariant_empty_iff _ _ hro).2 hz)
      · rw [fieldVariant_norm_eq _ _ hro]
        exact hv
    · obtain ⟨r', hr', hvar⟩ := exists_mem_of_forall2_left _ _ hroles r hmem
      refine ⟨r', (mem_collect_role_names u' r').2 (Or.inr ⟨hr', ?_⟩), ?_⟩
      · intro hz
        exact hne ((fieldVariant_empty_iff _ _ hvar).2 hz)
      · rw [fieldVariant_norm_eq _ _ hvar]
        exact hv

theorem groups_any_variant (l l' : List Str) (h : List.Forall₂ fieldVariant l l')
    (v : Str) :
    l'.any (fun group => _normalize_token (some group) = v) =
      l.any (fun group => _normalize_token (some group) = v) := by
  induction h with
  | nil => rfl
  | cons hd tl ih => simp [List.any_cons, ih, fieldVariant_norm_eq _ _ hd]

theorem user_matches_norm_token_variant (u u' : User) (h : userVariant u u')
    (token : Str) :
    user_matches_norm_token u' token = user_matches_norm_token u token := by
  have hdep := h.2.2.2.2.1
  have hgroups := h.2.2.2.2.2.2
  unfold user_matches_norm_token
  by_cases h0 : token = []
  · rw [if_pos h0, if_pos h0]
  · rw [if_neg h0, if_neg h0]
    by_cases h1 : (strLit "role:").isPrefixOf token = true
    · rw [if_pos h1, if_pos h1]
      exact collect_any_variant u u' h _
    · rw [if_neg h1, if_neg h1]
      by_cases h2 : (strLit "department:").isPrefixOf token = true
      · rw [if_pos h2, if_pos h2]
        simp only [fieldVariant_norm_eq _ _ hdep]
      · rw [if_neg h2, if_neg h2]
        by_cases h3 : (strLit "group:").isPrefixOf token = true
        · rw [if_pos h3, if_pos h3]
          exact groups_any_variant _ _ hgroups _
        · rw [if_neg h3, if_neg h3]
          by_cases h4 : (strLit "user:").isPrefixOf token = true
          · rw [if_pos h4, if_pos h4, user_identifier_tokens_variant u u' h]
          · rw [if_neg h4, if_neg h4, user_identifier_tokens_variant u u' h]

/-- C8: the result of `user_matches_approver` is invariant under (a)
padding the token with leading/trailing whitespace, (b) changing the
case of the token, and (c) rewriting the user's identifier fields by
case changes and whitespace padding (an absent/empty field staying
absent): every comparison happens on trimmed, lowercased values. -/
theorem C8_match_invariance :
    (∀ (u : User) (t w1 w2 : Str), wsOnly w1 → wsOnly w2 →
      user_matches_approver u (w1 ++ t ++ w2) = user_matches_approver u t) ∧
    (∀ (u : User) (t t' : Str), pyLower t = pyLower t' →
      user_matches_approver u t = user_matches_approver u t') ∧
    (∀ u u' : User, userVariant u u' →
      ∀ t, user_matches_approver u' t = user_matches_approver u t) := by
  refine ⟨?_, ?_, ?_⟩
  · intro u t w1 w2 h1 h2
    unfold user_matches_approver
    rw [normalize_pad w1 t w2 h1 h2]
  · intro u t t' hl
    unfold user_matches_approver
    rw [normalize_of_lower_eq t t' hl]
  · intro u u' h t
    unfold user_matches_approver
    exact user_matches_norm_token_variant u u' h _

/-- Witness for C8 at a concrete input: padding `role:qa` with
whitespace and changing its case does not change the match result. -/
theorem C8_match_invariance_witness :
    wsOnly (strLit "  ") ∧ wsOnly (strLit " ") ∧
      user_matches_approver c5User (strLit "  " ++ strLit "role:qa" ++ strLit " ") =
        user_matches_approver c5User (strLit "role:qa") ∧
      user_matches_approver c5User (strLit "ROLE:QA") =
        user_matches_approver c5User (strLit "role:qa") :=
  ⟨by unfold wsOnly; decide, by unfold wsOnly; decide,
    C8_match_invariance.1 c5User (strLit "role:qa") (strLit "  ") (strLit " ")
      (by unfold wsOnly; decide) (by unfold wsOnly; decide),
    C8_match_invariance.2.1 c5User (strLit "ROLE:QA") (strLit "role:qa") (by decide)⟩
